import Mathlib

/-
Verification of the Minecraft_Server_Updater core (src/mcsm.py, src/MS_Update.py)
against its natural-language specification.

The Python code is shallowly embedded: pure computations become Lean functions,
filesystem state becomes an explicit record threaded through the functions, the
network collaborators (manifest resolver, jar-metadata fetch, artifact fetch)
become explicit inputs, and the straight-line effectful thread bodies become
lists of observable actions. Machine integers do not occur in the modelled
fragment; Python floats in the configuration are modelled as rationals.
-/

namespace Mcsm

/- ------------------------------------------------------------------ -/
/- Characters and strings: the pieces of Python string handling used  -/
/- by validate_config, get_server_type and float().                   -/
/- ------------------------------------------------------------------ -/

/-- A decimal digit, the regex class `\d`. In a Python str pattern `\d` is the
Unicode decimal-digit category; the model restricts it to its ASCII fragment.
The restriction is inessential to every property proved here: Unicode decimal
digits are caseless (str.upper fixes them, as pyUpperChar below fixes every
character outside ASCII a-z), so a non-ASCII digit string behaves under
validation exactly like an ASCII one, only routed to the fallback branch by the
model where the source keeps it; both branches satisfy the stated invariants. -/
def isDigitCh (c : Char) : Bool :=
  decide (48 ≤ c.toNat) && decide (c.toNat ≤ 57)

/-- One of G, M, g, m: the regex class `[GM]` under the `(?i)` flag. -/
def isGMCh (c : Char) : Bool :=
  decide (c = 'G') || decide (c = 'M') || decide (c = 'g') || decide (c = 'm')

/-- One of G, M: the canonical upper-case suffix of a memory string. -/
def isGMUpper (c : Char) : Bool :=
  decide (c = 'G') || decide (c = 'M')

/-- Python `str.upper` on one character (ASCII fragment, which covers every
character the memory pattern can accept). -/
def pyUpperChar (c : Char) : Char :=
  if 97 ≤ c.toNat ∧ c.toNat ≤ 122 then Char.ofNat (c.toNat - 32) else c

/-- Python `str.upper` (ASCII fragment). -/
def pyUpper (s : String) : String := ⟨s.data.map pyUpperChar⟩

/-- Tail of the memory-size pattern: zero or more further digits, then one
character of the class `[GMgm]`. -/
def memTail : List Char → Bool
  | [] => false
  | [c] => isGMCh c
  | c :: c2 :: rest => isDigitCh c && memTail (c2 :: rest)

/-- The memory-size pattern on a character list: one or more digits followed by
one character of the class `[GMgm]`. -/
def memStart : List Char → Bool
  | [] => false
  | c :: rest => isDigitCh c && memTail rest

/-- The Python regex anchor `$` matches at the end of the string or just before
one newline at the end of the string: drop that one optional trailing newline
before testing the pattern body (the body itself cannot absorb the newline,
since `[GM]` does not match it). -/
def dropTrailNL (l : List Char) : List Char :=
  if l.getLast? = some '\n' then l.dropLast else l

/-- Model of `re.match(r"(?i)^\d+[GM]$", s)` from validate_config
(src/mcsm.py line 47): one or more digits followed by G or M,
case-insensitive, with `$` also accepting one trailing newline. -/
def isMemStr (s : String) : Bool := memStart (dropTrailNL s.data)

/-- Tail of the canonical (upper-case) memory pattern. -/
def memTailU : List Char → Bool
  | [] => false
  | [c] => isGMUpper c
  | c :: c2 :: rest => isDigitCh c && memTailU (c2 :: rest)

/-- The canonical memory pattern on a character list. -/
def memStartU : List Char → Bool
  | [] => false
  | c :: rest => isDigitCh c && memTailU rest

/-- Strictly canonical memory string: digits followed by upper-case G or M and
nothing else. This is the canonical form the claims describe; the code does not
guarantee it (a trailing newline survives validation). -/
def isMemCanon (s : String) : Bool := memStartU s.data

/-- What validation actually guarantees: digits followed by upper-case G or M,
optionally followed by one trailing newline (accepted by the `$` anchor and
preserved by str.upper). -/
def isMemCanonNL (s : String) : Bool := memStartU (dropTrailNL s.data)

/-- Whitespace stripped by Python `str.strip`. -/
def isSpaceCh (c : Char) : Bool :=
  decide (c = ' ') || decide (c = '\t') || decide (c = '\n') || decide (c = '\r')

/-- Python `str.strip`. -/
def pyStrip (s : String) : String :=
  ⟨((s.data.dropWhile isSpaceCh).reverse.dropWhile isSpaceCh).reverse⟩

/-- Numeric value of a digit string. -/
def digitsVal (l : List Char) : Nat :=
  l.foldl (fun a c => a * 10 + (c.toNat - 48)) 0

/-- Model of Python `float(s)` on strings: an optional sign, then digits with at
most one decimal point and at least one digit overall (a fragment of the Python
float grammar; exponents, infinities and surrounding whitespace are not needed
by the configuration values considered). `none` models a ValueError. -/
def parsePyFloat (s : String) : Option Rat :=
  let body : List Char → Option Rat := fun l =>
    let ip := l.takeWhile isDigitCh
    match l.dropWhile isDigitCh with
    | [] => if ip.isEmpty then none else some (digitsVal ip)
    | '.' :: fr =>
      if fr.all isDigitCh && !(ip.isEmpty && fr.isEmpty) then
        some ((digitsVal ip : Rat) + (digitsVal fr : Rat) / ((10 : Rat) ^ fr.length))
      else none
    | _ => none
  match s.data with
  | '-' :: rest => (body rest).map (fun q => -q)
  | '+' :: rest => body rest
  | l => body l

/- ------------------------------------------------------------------ -/
/- Configuration values and validate_config / load_config.            -/
/- ------------------------------------------------------------------ -/

/-- A scalar JSON value as stored in mcsm.conf. Python ints and floats are kept
apart, as the json module keeps them apart. -/
inductive JVal where
  | s (v : String)
  | i (v : Int)
  | f (v : Rat)
  | b (v : Bool)
deriving DecidableEq

/-- Python `str(v)` on the scalar values. The exact rendering of numbers is
irrelevant to the memory pattern check: no numeric rendering ends in G or M. -/
def pyStr : JVal → String
  | .s v => v
  | .i n => toString n
  | .f q => toString q
  | .b v => if v then "True" else "False"

/-- Python `float(v)` on the scalar values; `none` models a ValueError. -/
def pyFloat : JVal → Option Rat
  | .s v => parsePyFloat v
  | .i n => some (n : Rat)
  | .f q => some q
  | .b v => some (if v then 1 else 0)

/-- The configuration dictionary. The two entries validate_config touches are
explicit fields; every other key/value pair is carried untouched in `rest`. -/
structure Config where
  server_memory : JVal
  restart_interval : JVal
  rest : List (String × JVal)
deriving DecidableEq

/-- src/mcsm.py lines 45-57: the memory string must match `(?i)^\d+[GM]$` and is
upper-cased, else replaced by "2G"; the interval must be accepted by float(),
else replaced by 12.0. -/
def validate_config (config : Config) : Config :=
  let mem := pyStr config.server_memory
  let c1 :=
    if isMemStr mem then { config with server_memory := .s (pyUpper mem) }
    else { config with server_memory := .s "2G" }
  match pyFloat c1.restart_interval with
  | some _ => c1
  | none => { c1 with restart_interval := .f 12 }

/-- A stored mcsm.conf: entries that may override the defaults. -/
structure StoredConfig where
  server_memory : Option JVal
  restart_interval : Option JVal
  rest : List (String × JVal)
deriving DecidableEq

/-- The default_config dict of src/mcsm.py lines 60-77, with the two validated
fields explicit and the remaining keys as opaque entries. -/
def default_config : Config where
  server_memory := .s "2G"
  restart_interval := .i 12
  rest :=
    [("last_server_version", .s "0.0.0"), ("dark_mode", .b true),
     ("enable_logging", .b true), ("check_updates", .b true),
     ("auto_start", .b false), ("enable_backups", .b true),
     ("enable_discord", .b false), ("discord_webhook", .s ""),
     ("discord_token", .s ""), ("discord_channel_id", .i 0),
     ("enable_auto_restart", .b true), ("enable_schedule", .b false),
     ("max_backups", .i 3), ("update_to_snapshot", .b false)]

/-- Python `dict.update`: stored entries override defaults key by key, and keys
the defaults do not mention are appended. -/
def updateEntries (base over : List (String × JVal)) : List (String × JVal) :=
  base.map (fun kv =>
    match over.find? (fun kv2 => kv2.1 = kv.1) with
    | some kv2 => kv2
    | none => kv) ++
  over.filter (fun kv2 => !(base.any (fun kv => kv.1 = kv2.1)))

/-- src/mcsm.py lines 59-85: start from the defaults, overlay the stored file
when it exists and parses (`none` covers both a missing file and a parse
failure, which the bare except swallows), then validate. -/
def load_config (stored : Option StoredConfig) : Config :=
  let merged :=
    match stored with
    | none => default_config
    | some sc =>
      { server_memory := sc.server_memory.getD default_config.server_memory
        restart_interval := sc.restart_interval.getD default_config.restart_interval
        rest := updateEntries default_config.rest sc.rest }
  validate_config merged

/- ------------------------------------------------------------------ -/
/- Filesystem state and the artifact updater (update_server).         -/
/- ------------------------------------------------------------------ -/

/-- An on-disk file: present and readable, or present but failing to read (the
open/read call raising inside the try). The payload is the content on disk. -/
inductive FileState (α : Type) where
  | readable (v : α)
  | unreadable (v : α)
deriving DecidableEq

/-- The files update_server and its helpers touch, plus the in-memory
`config["last_server_version"]` entry. `none` means the file is absent. The
config-file content is abstracted to the last_server_version value serialized
into it (the only config field update_server changes before save_config). -/
structure SState where
  serverJar : Option (FileState (List Nat))
  versionFile : Option (FileState String)
  serverTypeFile : Option (FileState String)
  configFile : Option (FileState String)
  lastServerVersion : String
deriving DecidableEq

/-- src/mcsm.py lines 181-187: read server_type.txt and strip it; a missing or
unreadable file (bare except) falls back to "Vanilla". -/
def get_server_type (st : SState) : String :=
  match st.serverTypeFile with
  | some (.readable v) => pyStrip v
  | some (.unreadable _) => "Vanilla"
  | none => "Vanilla"

/-- src/mcsm.py lines 207-215 and the identical src/MS_Update.py lines 109-122:
a missing file gives "", a failing read (bare except) gives "", otherwise the
SHA-1 hex digest of the bytes. The digest itself is the parameter `sha1hex`. -/
def get_local_sha1 (sha1hex : List Nat → String)
    (file : Option (FileState (List Nat))) : String :=
  match file with
  | none => ""
  | some (.unreadable _) => ""
  | some (.readable bs) => sha1hex bs

/-- Outcome of the streamed HTTP fetch inside download_file (src/mcsm.py lines
192-205): the request can fail before the target file is opened (requests.get or
raise_for_status raising), fail after the target was opened (hence truncated)
and 0 or more chunks were written into it, or deliver the full body. -/
inductive FetchOutcome where
  | failEarly
  | failAfter (written : List Nat)
  | ok (bytes : List Nat)
deriving DecidableEq

/-- src/mcsm.py lines 192-205, downloading to the server jar: `open(filename,
"wb")` truncates the live target and chunks are written directly into it, so a
mid-transfer failure leaves the bytes written so far on disk. The boolean is the
return value of download_file. -/
def download_file_to_jar (fetch : FetchOutcome) (st : SState) : Bool × SState :=
  match fetch with
  | .failEarly => (false, st)
  | .failAfter written => (false, { st with serverJar := some (.readable written) })
  | .ok bytes => (true, { st with serverJar := some (.readable bytes) })

/-- The network collaborators update_server consults: the manifest resolution
(get_remote_version_info, yielding target version and metadata url, `none` on
failure), the jar-metadata fetch (remote sha1 and download url, `none` on
failure), and the artifact fetch outcome. -/
structure UpdateEnv where
  resolver : Option (String × String)
  jarInfo : Option (String × String)
  fetch : FetchOutcome
deriving DecidableEq

/-- The distinct exit paths of update_server (src/mcsm.py lines 230-272). The
Python function returns the boolean `UpdateResult.toBool`. -/
inductive UpdateResult where
  | skippedModded
  | failedResolve
  | failedJarInfo
  | updated
  | upToDate
  | failedDownload
  | skippedOther
deriving DecidableEq

/-- The boolean actually returned by the Python update_server. -/
def UpdateResult.toBool : UpdateResult → Bool
  | .skippedModded => true
  | .failedResolve => false
  | .failedJarInfo => false
  | .updated => true
  | .upToDate => true
  | .failedDownload => false
  | .skippedOther => true

/-- src/mcsm.py lines 230-272. Forge/NeoForge non-initial calls skip; for a
Vanilla server the manifest is resolved (empty id or url counts as a failure,
the Python truthiness test), the jar metadata fetched, the local sha compared,
and on a difference (or forced initial install) the jar is downloaded in place;
on success the version file, the in-memory last_server_version and the saved
config are all written (the write failures swallowed by the bare excepts are
not modelled). The process-kill side effects have no filesystem footprint. -/
def update_server (sha1hex : List Nat → String) (env : UpdateEnv) (st : SState)
    (is_initial : Bool) : UpdateResult × SState :=
  let server_type := get_server_type st
  if (server_type = "Forge" ∨ server_type = "NeoForge") ∧ is_initial = false then
    (.skippedModded, st)
  else if server_type = "Vanilla" then
    match env.resolver with
    | none => (.failedResolve, st)
    | some (target_ver, json_url) =>
      if target_ver = "" ∨ json_url = "" then (.failedResolve, st)
      else
        match env.jarInfo with
        | none => (.failedJarInfo, st)
        | some (remote_sha, _download_url) =>
          let local_sha := get_local_sha1 sha1hex st.serverJar
          if local_sha ≠ remote_sha ∨ is_initial = true then
            match download_file_to_jar env.fetch st with
            | (true, st1) =>
              (.updated,
               { st1 with
                 versionFile := some (.readable target_ver)
                 lastServerVersion := target_ver
                 configFile := some (.readable target_ver) })
            | (false, st1) => (.failedDownload, st1)
          else (.upToDate, st)
  else (.skippedOther, st)

/- ------------------------------------------------------------------ -/
/- Supervisor thread bodies as traces of observable actions.          -/
/- ------------------------------------------------------------------ -/

/-- Observable steps of the supervisor code paths, in source order. -/
inductive SAction where
  | setStopRequestedFalse
  | logNotInstalled
  | runInstallerWizard
  | stopExisting
  | updateServerCheck
  | backupWorld
  | logStarting
  | notifyStarting
  | spawnProcess
  | statusRunning
  | startStreamReaders
  | startMonitor
  | startUpdateChecker
  | scheduleRestart
  | logStartFailed
  | statusStopped
  | logExit
  | clearProcessHandle
  | notifyStopped
  | logCrash
  | notifyCrash
  | sleepSec (n : Nat)
  | startSequence
  | logRestarting
  | logSchedExec
  | notifySchedExec
  | stopServer
deriving DecidableEq

/-- The branch switches of one _start_server_thread run. -/
structure StartParams where
  installed : Bool
  hasInputCallback : Bool
  wizardOk : Bool
  check_updates : Bool
  spawnOk : Bool
  enable_schedule : Bool
deriving DecidableEq

set_option linter.unusedVariables false in
/-- src/mcsm.py lines 387-455: the body of start_server_sequence, run on its
worker thread, as the sequence of steps it performs. `processExists` records
whether a managed process already exists (the supervisor is not Stopped) at the
moment of the call; the source code never consults it. -/
def start_server_thread (processExists : Bool) (p : StartParams) : List SAction :=
  .setStopRequestedFalse ::
  (if !p.installed && p.hasInputCallback then [.logNotInstalled]
   else if !p.installed && !p.wizardOk then [.runInstallerWizard]
   else
     (if !p.installed then [.runInstallerWizard] else []) ++
     (if p.check_updates then [.stopExisting, .updateServerCheck] else []) ++
     [.stopExisting, .backupWorld, .logStarting, .notifyStarting, .spawnProcess] ++
     (if p.spawnOk then
        [.statusRunning, .startStreamReaders, .startMonitor, .startUpdateChecker] ++
        (if p.enable_schedule then [.scheduleRestart] else [])
      else [.logStartFailed, .statusStopped]))

/-- src/mcsm.py lines 480-490: the tail of _monitor_loop once the managed
process has exited, given the exit code, the live stop_requested flag and the
`config.get("enable_auto_restart", True)` setting. -/
def monitor_exit (rc : Int) (stop_requested enable_auto_restart : Bool) :
    List SAction :=
  [.logExit, .clearProcessHandle, .statusStopped, .notifyStopped] ++
  (if rc ≠ 0 ∧ stop_requested = false ∧ enable_auto_restart = true then
     [.logCrash, .notifyCrash, .sleepSec 10, .startSequence]
   else [])

/-- src/mcsm.py lines 526-532: restart_server logs, calls stop_server, then on a
worker thread sleeps 5 seconds and calls start_server_sequence. -/
def restart_server_actions : List SAction :=
  [.logRestarting, .stopServer, .sleepSec 5, .startSequence]

/-- src/mcsm.py lines 551-556: the body of the scheduled-restart timer callback
restart_task: log, webhook notify, stop_server, a 10-second delay,
start_server_sequence. -/
def restart_task_actions : List SAction :=
  [.logSchedExec, .notifySchedExec, .stopServer, .sleepSec 10, .startSequence]

/-- The stop/start core of a restart sequence (log, notify and delay steps
filtered out). -/
def isCoreAct : SAction → Bool
  | .stopServer => true
  | .startSequence => true
  | _ => false

/-- Recognizes a delay step. -/
def isSleepAct : SAction → Bool
  | .sleepSec _ => true
  | _ => false

/- ------------------------------------------------------------------ -/
/- Backup retention (backup_world).                                   -/
/- ------------------------------------------------------------------ -/

/-- The Python slice `l[:-k]` for a non-negative k. For k = 0 this is `l[:0]`,
the empty list, not the whole list. -/
def pySliceUpToNeg {α : Type} (l : List α) (k : Nat) : List α :=
  if k = 0 then [] else l.take (l.length - k)

/-- Insertion into a sorted list, the building block of the sort model. -/
def insertSorted (x : Nat) : List Nat → List Nat
  | [] => [x]
  | y :: ys => if x ≤ y then x :: y :: ys else y :: insertSorted x ys

/-- Python `sorted` on the backup names. Names are timestamp-prefixed file names
whose lexicographic order is chronological; they are abstracted to naturals in
that order. -/
def sortNat (l : List Nat) : List Nat := l.foldr insertSorted []

/-- src/mcsm.py lines 347-368 (backup_world), successful-archive path: the new
archive is created in the backup directory, then retention runs: the backup
names are sorted ascending and, when their count exceeds max_b, the slice
`backups[:-max_b]` is deleted (deletion failures, swallowed by the bare except,
are not modelled). `dir` lists the backup files in creation order. -/
def backup_world (max_b : Nat) (dir : List Nat) (newName : Nat) : List Nat :=
  let dir1 := dir ++ [newName]
  let backups := sortNat dir1
  if max_b < backups.length then
    let toDelete := pySliceUpToNeg backups max_b
    dir1.filter (fun f => decide (f ∉ toDelete))
  else dir1

/-- Creating a series of backups in chronological order, each creation followed
by its retention pass, as in the source. -/
def runBackups (max_b : Nat) (names : List Nat) : List Nat :=
  names.foldl (backup_world max_b) []

/- ------------------------------------------------------------------ -/
/- The ANSI color tag state machine (insert_colored).                 -/
/- ------------------------------------------------------------------ -/

/-- Display tags of the GUI console. -/
inductive CTag where
  | stderrTag
  | red
  | green
  | yellow
  | cyan
deriving DecidableEq

/-- One segment of the split on the SGR regex (group-capturing re.split over
the escape pattern ESC bracket digits-and-semicolons m): either a captured SGR
escape (holding the code string standing between ESC[ and m) or a plain text
segment. -/
inductive Seg where
  | esc (code : String)
  | plain (s : String)
deriving DecidableEq

/-- The tag transition of insert_colored (src/mcsm.py lines 864-868) on one
code string. -/
def applyCode (t : Option CTag) (code : String) : Option CTag :=
  if code = "0" then none
  else if code = "31" ∨ code = "91" then some .red
  else if code = "32" ∨ code = "92" then some .green
  else if code = "33" ∨ code = "93" then some .yellow
  else if code = "36" ∨ code = "96" then some .cyan
  else t

/-- Python `part.startswith` with the two-character ESC[ prefix, the dispatch
test of the source loop (src/mcsm.py line 862). -/
def startsEsc (part : String) : Bool :=
  match part.data with
  | c1 :: c2 :: _ => decide (c1 = '\x1b') && decide (c2 = '[')
  | _ => false

/-- The code string the source extracts from a part its dispatch treats as an
escape: `part.strip()[2:-1]` (src/mcsm.py line 863). For a matched SGR escape
this is the digit string standing between ESC[ and m; for a plain segment that
merely begins with ESC[ it is garbage. -/
def escCode (part : String) : String :=
  ⟨((pyStrip part).data.drop 2).dropLast⟩

/-- The classification the source dispatch induces on one split part: parts
beginning with ESC[ act as escapes carrying `part.strip()[2:-1]`; every other
part is plain. Note this is not the matched-versus-plain split classification:
a plain split segment that begins with a non-SGR escape such as ESC[K lands in
the esc class. -/
def toSeg (part : String) : Seg :=
  if startsEsc part then Seg.esc (escCode part) else Seg.plain part

/-- src/mcsm.py lines 858-870: walk the split parts; a part starting with ESC[
updates the tag from the code `part.strip()[2:-1]` and is never inserted (this
swallows plain segments that merely begin with ESC[); any other nonempty part
is inserted with the current tag. -/
def insert_colored (t : Option CTag) : List String → List (String × Option CTag)
  | [] => []
  | part :: rest =>
    if startsEsc part then insert_colored (applyCode t (escCode part)) rest
    else (if part = "" then [] else [(part, t)]) ++ insert_colored t rest

/-- The walk on already-classified segments: the source walk equals this after
classifying each part with toSeg. -/
def insertSegs (t : Option CTag) : List Seg → List (String × Option CTag)
  | [] => []
  | .esc c :: rest => insertSegs (applyCode t c) rest
  | .plain s :: rest => (if s = "" then [] else [(s, t)]) ++ insertSegs t rest

/-- The tag current after processing a list of segments, starting from t. -/
def tagAfter (t : Option CTag) (segs : List Seg) : Option CTag :=
  segs.foldl
    (fun acc seg => match seg with | .esc c => applyCode acc c | .plain _ => acc) t

/- ------------------------------------------------------------------ -/
/- Concrete inputs for witnesses and counterexamples.                 -/
/- ------------------------------------------------------------------ -/

/-- A concrete stand-in for the SHA-1 hex digest in closed statements: injective
on byte lists (as SHA-1 is on the non-colliding inputs considered) and never the
empty string (a real hex digest has 40 characters). -/
def sha1hex0 (bs : List Nat) : String := "#" ++ toString bs

/- ================================================================== -/
/- Theorems.                                                          -/
/- ================================================================== -/

/- Helper lemmas on characters and the memory pattern. -/

theorem pyUpperChar_digit {c : Char} (h : isDigitCh c = true) : pyUpperChar c = c := by
  have h2 : ¬(97 ≤ c.toNat ∧ c.toNat ≤ 122) := by
    simp only [isDigitCh, Bool.and_eq_true, decide_eq_true_eq] at h
    omega
  simp [pyUpperChar, h2]

theorem pyUpperChar_gm {c : Char} (h : isGMCh c = true) :
    isGMUpper (pyUpperChar c) = true ∧ pyUpperChar (pyUpperChar c) = pyUpperChar c := by
  simp only [isGMCh, Bool.or_eq_true, decide_eq_true_eq] at h
  rcases h with ((h | h) | h) | h <;> subst h <;> exact ⟨by decide, by decide⟩

theorem isGMCh_of_upper {c : Char} (h : isGMUpper c = true) : isGMCh c = true := by
  simp only [isGMUpper, Bool.or_eq_true, decide_eq_true_eq] at h
  rcases h with h | h <;> subst h <;> decide

theorem memTail_upper : ∀ {l : List Char}, memTail l = true →
    memTailU (l.map pyUpperChar) = true ∧
    (l.map pyUpperChar).map pyUpperChar = l.map pyUpperChar
  | [], h => by simp [memTail] at h
  | [c], h => by
    simp only [memTail] at h
    obtain ⟨h1, h2⟩ := pyUpperChar_gm h
    simp [memTailU, h1, h2]
  | c :: c2 :: rest, h => by
    simp only [memTail, Bool.and_eq_true] at h
    obtain ⟨hd, ht⟩ := h
    obtain ⟨ih1, ih2⟩ := memTail_upper (l := c2 :: rest) ht
    have hfix := pyUpperChar_digit hd
    refine ⟨?_, ?_⟩
    · simp only [List.map_cons] at ih1 ⊢
      simp only [memTailU, hfix, hd, Bool.true_and]
      exact ih1
    · simp only [List.map_cons] at ih2 ⊢
      simp only [hfix]
      rw [ih2]

theorem memTailU_to_memTail : ∀ {l : List Char}, memTailU l = true → memTail l = true
  | [], h => by simp [memTailU] at h
  | [c], h => by
    simp only [memTailU] at h
    simpa [memTail] using isGMCh_of_upper h
  | c :: c2 :: rest, h => by
    simp only [memTailU, Bool.and_eq_true] at h
    simp only [memTail, Bool.and_eq_true]
    exact ⟨h.1, memTailU_to_memTail h.2⟩

theorem memTailU_map_fix : ∀ {l : List Char}, memTailU l = true →
    l.map pyUpperChar = l
  | [], h => by simp [memTailU] at h
  | [c], h => by
    simp only [memTailU, isGMUpper, Bool.or_eq_true, decide_eq_true_eq] at h
    rcases h with h | h <;> subst h <;> decide
  | c :: c2 :: rest, h => by
    simp only [memTailU, Bool.and_eq_true] at h
    simp only [List.map_cons]
    have := memTailU_map_fix (l := c2 :: rest) h.2
    simp only [List.map_cons] at this
    rw [pyUpperChar_digit h.1, this]

theorem memStartU_upper {l : List Char} (h : memStart l = true) :
    memStartU (l.map pyUpperChar) = true := by
  match l, h with
  | c :: rest, h =>
    simp only [memStart, Bool.and_eq_true] at h
    simp only [List.map_cons, memStartU, Bool.and_eq_true]
    exact ⟨by rw [pyUpperChar_digit h.1]; exact h.1, (memTail_upper h.2).1⟩

theorem memStartU_map_fix {l : List Char} (h : memStartU l = true) :
    l.map pyUpperChar = l := by
  match l, h with
  | c :: rest, h =>
    simp only [memStartU, Bool.and_eq_true] at h
    simp only [List.map_cons]
    rw [pyUpperChar_digit h.1, memTailU_map_fix h.2]

theorem memStart_of_U {l : List Char} (h : memStartU l = true) : memStart l = true := by
  match l, h with
  | c :: rest, h =>
    simp only [memStartU, Bool.and_eq_true] at h
    simp only [memStart, Bool.and_eq_true]
    exact ⟨h.1, memTailU_to_memTail h.2⟩

theorem isGMUpper_ne_nl {c : Char} (h : isGMUpper c = true) : c ≠ '\n' := by
  simp only [isGMUpper, Bool.or_eq_true, decide_eq_true_eq] at h
  rcases h with h | h <;> subst h <;> decide

theorem isGMCh_upperChar_ne_nl {c : Char} (h : isGMCh c = true) :
    pyUpperChar c ≠ '\n' :=
  isGMUpper_ne_nl (pyUpperChar_gm h).1

theorem memTail_getLast : ∀ {l : List Char}, memTail l = true →
    ∃ c, l.getLast? = some c ∧ isGMCh c = true
  | [], h => by simp [memTail] at h
  | [c], h => ⟨c, List.getLast?_singleton c, by simpa [memTail] using h⟩
  | c :: c2 :: rest, h => by
    simp only [memTail, Bool.and_eq_true] at h
    obtain ⟨d, hd, hgm⟩ := memTail_getLast (l := c2 :: rest) h.2
    exact ⟨d, by rw [List.getLast?_cons_cons, hd], hgm⟩

theorem memStart_getLast {l : List Char} (h : memStart l = true) :
    ∃ c, l.getLast? = some c ∧ isGMCh c = true := by
  match l, h with
  | [], h => simp [memStart] at h
  | c :: rest, h =>
    simp only [memStart, Bool.and_eq_true] at h
    match rest, h.2 with
    | [], h2 => simp [memTail] at h2
    | c2 :: rest2, h2 =>
      obtain ⟨d, hd, hgm⟩ := memTail_getLast h2
      exact ⟨d, by rw [List.getLast?_cons_cons, hd], hgm⟩

theorem dropTrailNL_eq_self {l : List Char} (h : l.getLast? ≠ some '\n') :
    dropTrailNL l = l := by
  unfold dropTrailNL
  rw [if_neg h]

theorem dropTrailNL_append_nl (l : List Char) : dropTrailNL (l ++ ['\n']) = l := by
  unfold dropTrailNL
  rw [if_pos (List.getLast?_concat l), List.dropLast_concat]

theorem dropTrailNL_decomp (l : List Char) :
    l = dropTrailNL l ∨ l = dropTrailNL l ++ ['\n'] := by
  unfold dropTrailNL
  by_cases hc : l.getLast? = some '\n'
  · rw [if_pos hc]
    exact Or.inr (List.dropLast_append_getLast? '\n' hc).symm
  · rw [if_neg hc]
    exact Or.inl rfl

theorem memStartU_NL_upper {l : List Char} (h : memStart (dropTrailNL l) = true) :
    memStartU (dropTrailNL (l.map pyUpperChar)) = true := by
  rcases dropTrailNL_decomp l with hd | hd
  · rw [← hd] at h
    obtain ⟨c, hc, hgm⟩ := memStart_getLast h
    have hfix : dropTrailNL (l.map pyUpperChar) = l.map pyUpperChar := by
      apply dropTrailNL_eq_self
      rw [List.getLast?_map, hc]
      intro hcontra
      simp only [Option.map_some'] at hcontra
      exact isGMCh_upperChar_ne_nl hgm (Option.some.inj hcontra)
    rw [hfix]
    exact memStartU_upper h
  · have hnl : List.map pyUpperChar ['\n'] = ['\n'] := by decide
    rw [hd, List.map_append, hnl, dropTrailNL_append_nl]
    exact memStartU_upper h

theorem memStartU_NL_map_fix {l : List Char} (h : memStartU (dropTrailNL l) = true) :
    l.map pyUpperChar = l := by
  rcases dropTrailNL_decomp l with hd | hd
  · rw [← hd] at h
    exact memStartU_map_fix h
  · have hnl : List.map pyUpperChar ['\n'] = ['\n'] := by decide
    rw [hd, List.map_append, hnl, memStartU_map_fix h]

theorem isMemCanonNL_upper {s : String} (h : isMemStr s = true) :
    isMemCanonNL (pyUpper s) = true :=
  memStartU_NL_upper h

theorem pyUpper_fix_NL {s : String} (h : isMemCanonNL s = true) : pyUpper s = s := by
  have h2 := memStartU_NL_map_fix (l := s.data) h
  unfold pyUpper
  rw [h2]

theorem isMemStr_of_canonNL {s : String} (h : isMemCanonNL s = true) :
    isMemStr s = true :=
  memStart_of_U h

/- Helper lemmas on validate_config. -/

theorem validate_config_fields (c : Config) :
    (validate_config c).server_memory =
      (if isMemStr (pyStr c.server_memory) then JVal.s (pyUpper (pyStr c.server_memory))
       else JVal.s "2G") ∧
    (validate_config c).restart_interval =
      (match pyFloat c.restart_interval with
       | some _ => c.restart_interval
       | none => JVal.f 12) ∧
    (validate_config c).rest = c.rest := by
  unfold validate_config
  cases hm : isMemStr (pyStr c.server_memory) <;>
    cases hf : pyFloat c.restart_interval <;>
      simp [hm, hf]

theorem validate_config_memory (c : Config) :
    ∃ m, (validate_config c).server_memory = JVal.s m ∧ isMemCanonNL m = true := by
  obtain ⟨h1, -, -⟩ := validate_config_fields c
  cases hm : isMemStr (pyStr c.server_memory)
  · rw [hm] at h1
    simp only [if_neg Bool.false_ne_true] at h1
    exact ⟨"2G", by simpa using h1, by decide⟩
  · rw [hm] at h1
    simp only [if_pos rfl] at h1
    exact ⟨pyUpper (pyStr c.server_memory), by simpa using h1, isMemCanonNL_upper hm⟩

theorem validate_config_interval (c : Config) :
    (pyFloat (validate_config c).restart_interval).isSome = true := by
  obtain ⟨-, h2, -⟩ := validate_config_fields c
  rw [h2]
  cases hf : pyFloat c.restart_interval
  · rfl
  · rw [hf]
    rfl

theorem validate_config_fix {c : Config}
    (hm : ∃ m, c.server_memory = JVal.s m ∧ isMemCanonNL m = true)
    (hf : (pyFloat c.restart_interval).isSome = true) :
    validate_config c = c := by
  obtain ⟨sm, ri, rest⟩ := c
  obtain ⟨m, hmem, hcanon⟩ := hm
  simp only at hmem hf
  subst hmem
  obtain ⟨q, hq⟩ := Option.isSome_iff_exists.mp hf
  unfold validate_config
  simp only
  have hstr : pyStr (JVal.s m) = m := rfl
  rw [hstr, isMemStr_of_canonNL hcanon, if_pos rfl, pyUpper_fix_NL hcanon]
  simp only [hq]

/-- C9 (amended): validate_config is an idempotent normalization: applying it
twice equals applying it once, and the server_memory field of any validated
config is a string consisting of digits followed by upper-case G or M,
optionally followed by one trailing newline. The strict canonical form the
claim states (digits then G or M and nothing else) does not hold: the Python
regex anchor accepts one trailing newline, which survives upper-casing. -/
theorem c9_validate_idempotent (c : Config) :
    validate_config (validate_config c) = validate_config c ∧
    ∃ m, (validate_config c).server_memory = JVal.s m ∧ isMemCanonNL m = true :=
  ⟨validate_config_fix (validate_config_memory c) (validate_config_interval c),
   validate_config_memory c⟩

/-- C9 counterexample: the stored memory string 2g followed by a newline is
accepted by the validation regex (the anchor matches before the trailing
newline) and upper-cased to 2G-newline, which is not in the canonical form the
claim states (digits followed by upper-case G or M and nothing else). -/
theorem c9_counterexample :
    validate_config ⟨JVal.s "2g\n", JVal.i 12, []⟩ =
      ⟨JVal.s "2G\n", JVal.i 12, []⟩ ∧
    isMemCanon "2G\n" = false := by
  refine ⟨by decide, by decide⟩

/-- C7 (amended): for every stored configuration of scalar values, load_config
returns a config whose memory string is the upper-cased image of a string the
validation regex accepts: digits followed by upper-case G or M, optionally
followed by one trailing newline (malformed strings replaced by the default
2G); and whose restart_interval is accepted by float() (values float() rejects
are replaced by the default 12.0). Neither conjunct of the original claim is
exact: the memory string may retain one trailing newline (the regex anchor
accepts it), and the source performs no positivity check on the interval, so
zero and negative values pass validation unchanged. -/
theorem c7_load_validation (stored : Option StoredConfig) :
    (∃ m, (load_config stored).server_memory = JVal.s m ∧ isMemCanonNL m = true) ∧
    (pyFloat (load_config stored).restart_interval).isSome = true := by
  unfold load_config
  exact ⟨validate_config_memory _, validate_config_interval _⟩

/-- A stored configuration with a newline-bearing memory string and a zero
restart interval. -/
def stored7 : StoredConfig where
  server_memory := some (JVal.s "2g\n")
  restart_interval := some (JVal.i 0)
  rest := []

/-- C7 counterexample: the loaded memory string keeps its trailing newline, so
it does not match an integer followed by G or M; and the stored
restart_interval 0 parses as the float 0 and is kept unchanged, so the loaded
interval is not strictly greater than 0. Both conjuncts of the claim fail. -/
theorem c7_counterexample :
    (load_config (some stored7)).server_memory = JVal.s "2G\n" ∧
    isMemCanon "2G\n" = false ∧
    (load_config (some stored7)).restart_interval = JVal.i 0 ∧
    pyFloat (load_config (some stored7)).restart_interval = some 0 ∧
    ¬((0 : Rat) < 0) := by
  refine ⟨by decide, by decide, by decide, by decide, by norm_num⟩

/-- C2: on an observed process exit, if the exit code is non-zero, stop was not
requested, and enable_auto_restart is set, the monitor loop performs exactly one
StartSequence invocation, reached only after the fixed 10-second cool-down; if
auto-restart is off, or the exit code is zero, or a stop was requested, that
exit triggers no restart at all. -/
theorem c2_crash_restart_policy (rc : Int) (stop_requested enable_auto_restart : Bool) :
    (rc ≠ 0 → stop_requested = false → enable_auto_restart = true →
      monitor_exit rc stop_requested enable_auto_restart =
        [.logExit, .clearProcessHandle, .statusStopped, .notifyStopped,
         .logCrash, .notifyCrash, .sleepSec 10, .startSequence] ∧
      (monitor_exit rc stop_requested enable_auto_restart).count .startSequence = 1) ∧
    (rc = 0 ∨ stop_requested = true ∨ enable_auto_restart = false →
      SAction.startSequence ∉ monitor_exit rc stop_requested enable_auto_restart) := by
  constructor
  · intro h1 h2 h3
    subst h2
    subst h3
    unfold monitor_exit
    rw [if_pos ⟨h1, rfl, rfl⟩]
    exact ⟨rfl, by decide⟩
  · intro h
    have hneg : ¬(rc ≠ 0 ∧ stop_requested = false ∧ enable_auto_restart = true) := by
      rcases h with h | h | h <;> subst h <;> simp
    unfold monitor_exit
    rw [if_neg hneg]
    decide

/-- C2 witness: a crash exit code 1 with no stop requested and auto-restart on
yields exactly one StartSequence after the 10-second sleep, and a clean exit
code 0 yields none. -/
theorem c2_witness :
    monitor_exit 1 false true =
      [.logExit, .clearProcessHandle, .statusStopped, .notifyStopped,
       .logCrash, .notifyCrash, .sleepSec 10, .startSequence] ∧
    (monitor_exit 1 false true).count .startSequence = 1 ∧
    SAction.startSequence ∉ monitor_exit 0 false true := by
  obtain ⟨ha, hb⟩ := (c2_crash_restart_policy 1 false true).1 (by decide) rfl rfl
  exact ⟨ha, hb, (c2_crash_restart_policy 0 false true).2 (Or.inl rfl)⟩

/-- A concrete parameter set: server installed, update checks on, spawn
succeeds, no schedule. -/
def startParamsFull : StartParams where
  installed := true
  hasInputCallback := true
  wizardOk := true
  check_updates := true
  spawnOk := true
  enable_schedule := false

/-- C3 counterexample: a StartSequence call made while a managed process
already exists (supervisor not Stopped) does not return immediately: its thread
still performs the update check, the backup and a second process spawn, because
_start_server_thread never consults the supervisor state. -/
theorem c3_counterexample :
    SAction.updateServerCheck ∈ start_server_thread true startParamsFull ∧
    SAction.backupWorld ∈ start_server_thread true startParamsFull ∧
    SAction.spawnProcess ∈ start_server_thread true startParamsFull := by
  decide

/-- C3 (amended): the core start sequence has no Stopped-state guard: the trace
of _start_server_thread is identical whether or not a managed process already
exists, and (for an installed server with update checks on) always contains the
update check, the backup and a process spawn. The idempotent guard the claim
describes lives only in the callers (the GUI disables the start button while
running; the bot checks for an existing process before calling). -/
theorem c3_no_stopped_guard (processExists processExists2 : Bool) (p : StartParams) :
    start_server_thread processExists p = start_server_thread processExists2 p ∧
    (p.installed = true → p.check_updates = true →
      SAction.updateServerCheck ∈ start_server_thread processExists p ∧
      SAction.backupWorld ∈ start_server_thread processExists p ∧
      SAction.spawnProcess ∈ start_server_thread processExists p) := by
  obtain ⟨i, hic, w, cu, sp, es⟩ := p
  refine ⟨rfl, fun hi hc => ?_⟩
  simp only at hi hc
  subst hi
  subst hc
  cases processExists <;> cases hic <;> cases w <;> cases sp <;> cases es <;> decide

/-- C3 witness: at the concrete full parameter set, the trace is independent of
an existing process and contains the backup step. -/
theorem c3_witness :
    start_server_thread true startParamsFull = start_server_thread false startParamsFull ∧
    SAction.backupWorld ∈ start_server_thread false startParamsFull := by
  have h := c3_no_stopped_guard false true startParamsFull
  exact ⟨h.1.symm, (h.2 rfl rfl).2.1⟩

/-- C6 counterexample: the scheduled-restart timer callback does not use the
5-second settling delay of RestartServer: its only delay step is 10 seconds. -/
theorem c6_counterexample :
    restart_task_actions.filter isSleepAct = [SAction.sleepSec 10] ∧
    SAction.sleepSec 5 ∉ restart_task_actions ∧
    restart_server_actions.filter isSleepAct = [SAction.sleepSec 5] := by
  decide

/-- C6 (amended): the scheduled-restart callback performs notify, then
StopRequested, then a fixed 10-second delay, then StartSequence; RestartServer
performs log, StopRequested, a fixed 5-second delay, StartSequence. The two
agree on the stop-then-start core but use different settling delays (10 versus
5 seconds). -/
theorem c6_sched_restart_mirror :
    restart_task_actions =
      [SAction.logSchedExec, SAction.notifySchedExec, SAction.stopServer,
       SAction.sleepSec 10, SAction.startSequence] ∧
    restart_server_actions =
      [SAction.logRestarting, SAction.stopServer, SAction.sleepSec 5,
       SAction.startSequence] ∧
    restart_task_actions.filter isCoreAct = restart_server_actions.filter isCoreAct ∧
    restart_task_actions.filter isSleepAct ≠ restart_server_actions.filter isSleepAct := by
  decide

/- Updater claims (C1, C5, C10). -/

/-- C5: a Vanilla, non-initial update check whose local SHA-1 equals the remote
SHA-1 returns UpToDate and performs no filesystem write: the returned state,
and with it the artifact file, the version-record file, the config file and the
stored last_server_version, is exactly the input state. -/
theorem c5_up_to_date_no_write (sha1hex : List Nat → String) (env : UpdateEnv)
    (st : SState) (target_ver json_url remote_sha download_url : String)
    (htype : get_server_type st = "Vanilla")
    (hres : env.resolver = some (target_ver, json_url))
    (htv : target_ver ≠ "") (hju : json_url ≠ "")
    (hjar : env.jarInfo = some (remote_sha, download_url))
    (heq : get_local_sha1 sha1hex st.serverJar = remote_sha) :
    update_server sha1hex env st false = (.upToDate, st) := by
  unfold update_server
  rw [htype, hres, hjar]
  simp [htv, hju, heq]

/-- A concrete installed state whose jar hashes to the remote hash below. -/
def st5 : SState where
  serverJar := some (.readable [7])
  versionFile := some (.readable "1.0")
  serverTypeFile := some (.readable "Vanilla")
  configFile := none
  lastServerVersion := "1.0"

/-- A concrete environment whose remote hash matches the jar of st5. -/
def env5 : UpdateEnv where
  resolver := some ("1.0", "https://meta")
  jarInfo := some (sha1hex0 [7], "https://jar")
  fetch := .ok [9]

/-- C5 witness: the up-to-date check at the concrete matching state returns
UpToDate and the unchanged state. -/
theorem c5_witness : update_server sha1hex0 env5 st5 false = (.upToDate, st5) :=
  c5_up_to_date_no_write sha1hex0 env5 st5 "1.0" "https://meta" (sha1hex0 [7])
    "https://jar" (by decide) rfl (by decide) (by decide) rfl rfl

/-- C1 (amended): when a Vanilla non-initial update decides to download and the
fetch fails, update_server returns the failure result (Python False); but the
download writes directly to the live artifact path with no temporary target, so
the artifact afterwards holds exactly the bytes written before the failure: the
previous content (and hence its hash) is preserved only when the fetch fails
before the target file is opened. -/
theorem c1_download_failure_effect (sha1hex : List Nat → String) (env : UpdateEnv)
    (st : SState) (target_ver json_url remote_sha download_url : String)
    (htype : get_server_type st = "Vanilla")
    (hres : env.resolver = some (target_ver, json_url))
    (htv : target_ver ≠ "") (hju : json_url ≠ "")
    (hjar : env.jarInfo = some (remote_sha, download_url))
    (hdiff : get_local_sha1 sha1hex st.serverJar ≠ remote_sha) :
    (env.fetch = .failEarly →
      update_server sha1hex env st false = (.failedDownload, st)) ∧
    (∀ written, env.fetch = .failAfter written →
      update_server sha1hex env st false =
        (.failedDownload, { st with serverJar := some (.readable written) })) := by
  constructor
  · intro hf
    unfold update_server
    rw [htype, hres, hjar]
    simp [htv, hju, hdiff, hf, download_file_to_jar]
  · intro written hf
    unfold update_server
    rw [htype, hres, hjar]
    simp [htv, hju, hdiff, hf, download_file_to_jar]

/-- A concrete installed state with jar bytes [1, 2, 3]. -/
def st1 : SState where
  serverJar := some (.readable [1, 2, 3])
  versionFile := some (.readable "1.0")
  serverTypeFile := some (.readable "Vanilla")
  configFile := none
  lastServerVersion := "1.0"

/-- A concrete environment whose fetch fails after writing 0 bytes (the target
already opened and truncated). -/
def env1 : UpdateEnv where
  resolver := some ("1.21.4", "https://meta")
  jarInfo := some ("deadbeef", "https://jar")
  fetch := .failAfter []

/-- C1 counterexample: a fetch failing after N = 0 bytes makes update_server
return the failure boolean, yet the on-disk artifact hash changes: the file was
truncated in place, so its content hash afterwards differs from its hash before
the operation, contradicting the no-partial-overwrite claim. -/
theorem c1_counterexample :
    (update_server sha1hex0 env1 st1 false).1.toBool = false ∧
    get_local_sha1 sha1hex0 (update_server sha1hex0 env1 st1 false).2.serverJar ≠
      get_local_sha1 sha1hex0 st1.serverJar := by
  decide

/-- C1 witness: the amended statement at the concrete failing fetch: the result
is the failure outcome and the artifact holds the 0 bytes written. -/
theorem c1_witness :
    update_server sha1hex0 env1 st1 false =
      (.failedDownload, { st1 with serverJar := some (.readable []) }) :=
  (c1_download_failure_effect sha1hex0 env1 st1 "1.21.4" "https://meta" "deadbeef"
    "https://jar" (by decide) rfl (by decide) (by decide) rfl (by decide)).2 [] rfl

/-- C10: get_local_sha1 is total and maps every failure to the empty hash: a
missing file gives "", an unreadable file gives "" (the bare except), a readable
file gives the SHA-1 digest of its bytes; and since a real remote hash is never
empty, an unreadable artifact compares unequal to every remote hash, so a
Vanilla non-initial update check takes the download branch (Updated or a
download failure, never UpToDate). -/
theorem c10_local_sha1_total (sha1hex : List Nat → String) :
    get_local_sha1 sha1hex none = "" ∧
    (∀ bs, get_local_sha1 sha1hex (some (.unreadable bs)) = "") ∧
    (∀ bs, get_local_sha1 sha1hex (some (.readable bs)) = sha1hex bs) ∧
    (∀ (env : UpdateEnv) (st : SState)
       (target_ver json_url remote_sha download_url : String) (bs : List Nat),
      get_server_type st = "Vanilla" →
      env.resolver = some (target_ver, json_url) →
      target_ver ≠ "" → json_url ≠ "" →
      env.jarInfo = some (remote_sha, download_url) →
      remote_sha ≠ "" →
      st.serverJar = some (.unreadable bs) →
      (update_server sha1hex env st false).1 ≠ .upToDate ∧
      ((update_server sha1hex env st false).1 = .updated ∨
       (update_server sha1hex env st false).1 = .failedDownload)) := by
  refine ⟨rfl, fun _ => rfl, fun _ => rfl, ?_⟩
  intro env st target_ver json_url remote_sha download_url bs
  intro htype hres htv hju hjar hrs hjarfile
  have hdiff : get_local_sha1 sha1hex st.serverJar ≠ remote_sha := by
    rw [hjarfile]
    exact fun h => hrs h.symm
  have hgoal : ∀ r : UpdateResult, r = .updated ∨ r = .failedDownload →
      r ≠ .upToDate ∧ (r = .updated ∨ r = .failedDownload) := by
    rintro r (rfl | rfl) <;> exact ⟨by decide, by simp⟩
  apply hgoal
  unfold update_server
  rw [htype, hres, hjar]
  cases hfetch : env.fetch <;>
    simp [htv, hju, hdiff, hfetch, download_file_to_jar]

/-- A concrete state whose jar exists but cannot be read. -/
def st10 : SState where
  serverJar := some (.unreadable [1])
  versionFile := none
  serverTypeFile := some (.readable "Vanilla")
  configFile := none
  lastServerVersion := "0.0.0"

/-- A concrete environment with a nonempty remote hash and a successful fetch. -/
def env10 : UpdateEnv where
  resolver := some ("1.0", "https://meta")
  jarInfo := some ("abc123", "https://jar")
  fetch := .ok [5]

/-- C10 witness: at the concrete unreadable-jar state the update check does not
report UpToDate: it takes the download branch. -/
theorem c10_witness :
    (update_server sha1hex0 env10 st10 false).1 ≠ .upToDate ∧
    ((update_server sha1hex0 env10 st10 false).1 = .updated ∨
     (update_server sha1hex0 env10 st10 false).1 = .failedDownload) :=
  (c10_local_sha1_total sha1hex0).2.2.2 env10 st10 "1.0" "https://meta" "abc123"
    "https://jar" [1] (by decide) rfl (by decide) (by decide) rfl (by decide) rfl

/- The color-tag claim (C8). -/

theorem tagAfter_nil (t : Option CTag) : tagAfter t [] = t := rfl

theorem tagAfter_cons_esc (t : Option CTag) (c : String) (l : List Seg) :
    tagAfter t (.esc c :: l) = tagAfter (applyCode t c) l := rfl

theorem tagAfter_cons_plain (t : Option CTag) (s : String) (l : List Seg) :
    tagAfter t (.plain s :: l) = tagAfter t l := rfl

/-- The emission the claim describes, stated independently of the loop: for each
index i holding a nonempty plain segment, the pair of that segment with the tag
current at that point (the tag reached after the first i segments). -/
def claimEmit (t : Option CTag) (segs : List Seg) : List (String × Option CTag) :=
  (List.range segs.length).filterMap (fun i =>
    match segs[i]? with
    | some (Seg.plain s) =>
      if s = "" then none else some (s, tagAfter t (segs.take i))
    | some (Seg.esc _) => none
    | none => none)

theorem claimEmit_cons_esc (t : Option CTag) (c : String) (rest : List Seg) :
    claimEmit t (.esc c :: rest) = claimEmit (applyCode t c) rest := by
  unfold claimEmit
  rw [List.length_cons, List.range_succ_eq_map, List.filterMap_cons, List.filterMap_map]
  simp only [List.getElem?_cons_zero]
  congr 1
  funext i
  simp only [Function.comp_apply, Nat.succ_eq_add_one, List.getElem?_cons_succ,
    List.take_succ_cons, tagAfter_cons_esc]

theorem claimEmit_cons_plain (t : Option CTag) (s : String) (rest : List Seg) :
    claimEmit t (.plain s :: rest) =
      (if s = "" then [] else [(s, t)]) ++ claimEmit t rest := by
  unfold claimEmit
  rw [List.length_cons, List.range_succ_eq_map, List.filterMap_cons, List.filterMap_map]
  by_cases hs : s = ""
  · subst hs
    simp only [List.getElem?_cons_zero, if_pos rfl, if_true, List.nil_append]
    congr 1
    funext i
    simp only [Function.comp_apply, Nat.succ_eq_add_one, List.getElem?_cons_succ,
      List.take_succ_cons, tagAfter_cons_plain]
  · simp only [List.getElem?_cons_zero, if_neg hs, List.take_zero, tagAfter_nil,
      List.singleton_append]
    congr 1
    congr 1
    funext i
    simp only [Function.comp_apply, Nat.succ_eq_add_one, List.getElem?_cons_succ,
      List.take_succ_cons, tagAfter_cons_plain]

theorem insertSegs_eq_claimEmit (t : Option CTag) (segs : List Seg) :
    insertSegs t segs = claimEmit t segs := by
  induction segs generalizing t with
  | nil => rfl
  | cons seg rest ih =>
    cases seg with
    | esc c =>
      rw [claimEmit_cons_esc]
      exact ih (applyCode t c)
    | plain s =>
      rw [claimEmit_cons_plain, ← ih t]
      rfl

theorem insert_colored_eq_insertSegs (t : Option CTag) (parts : List String) :
    insert_colored t parts = insertSegs t (parts.map toSeg) := by
  induction parts generalizing t with
  | nil => rfl
  | cons part rest ih =>
    by_cases hp : startsEsc part = true
    · show (if startsEsc part then insert_colored (applyCode t (escCode part)) rest
           else (if part = "" then [] else [(part, t)]) ++ insert_colored t rest) =
          insertSegs t (toSeg part :: rest.map toSeg)
      rw [if_pos hp]
      unfold toSeg
      rw [if_pos hp]
      exact ih (applyCode t (escCode part))
    · show (if startsEsc part then insert_colored (applyCode t (escCode part)) rest
           else (if part = "" then [] else [(part, t)]) ++ insert_colored t rest) =
          insertSegs t (toSeg part :: rest.map toSeg)
      rw [if_neg hp]
      unfold toSeg
      rw [if_neg hp]
      show (if part = "" then [] else [(part, t)]) ++ insert_colored t rest =
        (if part = "" then [] else [(part, t)]) ++ insertSegs t (rest.map toSeg)
      rw [ih t]

/-- C8 (amended): the display-tag state machine maps code 0 to reset (no tag),
31 and 91 to red, 32 and 92 to green, 33 and 93 to yellow, 36 and 96 to cyan,
and every code outside this set leaves the current tag unchanged — as claimed.
But the walk dispatches on startswith ESC[ rather than on being a matched SGR
escape: every split part beginning with ESC[, including a plain segment that
merely begins with a non-SGR escape, has its tag transition computed from
part.strip()[2:-1] and is never emitted; every other nonempty part is emitted
with the tag current at its position. Formally, the source walk equals the
claim-level emission only after reclassifying each part by that startswith
dispatch (toSeg), not under the claim's matched-escape-versus-plain split. -/
theorem c8_color_state_machine (t : Option CTag) (parts : List String) :
    applyCode t "0" = none ∧
    (applyCode t "31" = some .red ∧ applyCode t "91" = some .red) ∧
    (applyCode t "32" = some .green ∧ applyCode t "92" = some .green) ∧
    (applyCode t "33" = some .yellow ∧ applyCode t "93" = some .yellow) ∧
    (applyCode t "36" = some .cyan ∧ applyCode t "96" = some .cyan) ∧
    (∀ code, code ∉ (["0", "31", "91", "32", "92", "33", "93", "36", "96"] :
        List String) → applyCode t code = t) ∧
    insert_colored t parts = claimEmit t (parts.map toSeg) := by
  refine ⟨by simp [applyCode], ⟨by simp [applyCode], by simp [applyCode]⟩,
    ⟨by simp [applyCode], by simp [applyCode]⟩,
    ⟨by simp [applyCode], by simp [applyCode]⟩,
    ⟨by simp [applyCode], by simp [applyCode]⟩, ?_,
    (insert_colored_eq_insertSegs t parts).trans
      (insertSegs_eq_claimEmit t (parts.map toSeg))⟩
  intro code h
  simp only [List.mem_cons, List.not_mem_nil, or_false, not_or] at h
  obtain ⟨h0, h31, h91, h32, h92, h33, h93, h36, h96⟩ := h
  simp [applyCode, h0, h31, h91, h32, h92, h33, h93, h36, h96]

/-- C8 counterexample: splitting the text ESC[31m ESC[Khello on the SGR pattern
yields the matched escape ESC[31m and the plain segment ESC[Khello (the ESC[K
sequence is not an SGR escape, so that part is plain text). The claim demands
the plain segment be emitted with the then-current red tag, but the source walk
emits nothing: the startswith branch swallows the plain segment, dispatching on
the garbage code Khell. -/
theorem c8_counterexample :
    insert_colored none ["\x1b[31m", "\x1b[Khello"] = [] ∧
    claimEmit none [Seg.esc "31", Seg.plain "\x1b[Khello"] =
      [("\x1b[Khello", some CTag.red)] ∧
    "\x1b[Khello" ≠ "" ∧
    escCode "\x1b[Khello" = "Khell" := by
  refine ⟨by decide, by decide, by decide, by decide⟩

/-- C8 witness: the unrecognized code 7 leaves a green tag unchanged, and the
walk on a concrete part list matches the claim-level emission of its
reclassified segments. -/
theorem c8_witness :
    applyCode (some CTag.green) "7" = some CTag.green ∧
    insert_colored none ["\x1b[31m", "err", "\x1b[0m", "ok"] =
      claimEmit none (["\x1b[31m", "err", "\x1b[0m", "ok"].map toSeg) ∧
    insert_colored none ["\x1b[31m", "err", "\x1b[0m", "ok"] =
      [("err", some CTag.red), ("ok", none)] := by
  have h1 := c8_color_state_machine (some CTag.green) ([] : List String)
  have h2 := c8_color_state_machine none ["\x1b[31m", "err", "\x1b[0m", "ok"]
  exact ⟨h1.2.2.2.2.2.1 "7" (by decide), h2.2.2.2.2.2.2, by decide⟩

/- Backup retention (C4). -/

theorem insertSorted_cons_le (x y : Nat) (ys : List Nat) (h : x ≤ y) :
    insertSorted x (y :: ys) = x :: y :: ys := by
  simp [insertSorted, h]

theorem sortNat_range' : ∀ (b a : Nat), sortNat (List.range' a b) = List.range' a b := by
  intro b
  induction b with
  | zero => intro a; rfl
  | succ n ih =>
    intro a
    rw [List.range'_succ]
    show insertSorted a (sortNat (List.range' (a + 1) n)) = a :: List.range' (a + 1) n
    rw [ih]
    cases n with
    | zero => rfl
    | succ k =>
      rw [List.range'_succ]
      exact insertSorted_cons_le _ _ _ (by omega)

theorem backup_world_range' (m a b : Nat) (hm : 1 ≤ m) (hb : b ≤ m) :
    backup_world m (List.range' a b) (a + b) =
      if b < m then List.range' a (b + 1) else List.range' (a + 1) m := by
  have hcat : List.range' a b ++ [a + b] = List.range' a (b + 1) := by
    rw [List.range'_concat, one_mul]
  simp only [backup_world]
  rw [hcat, sortNat_range', List.length_range']
  by_cases hlt : b < m
  · rw [if_neg (by omega), if_pos hlt]
  · have hbm : b = m := by omega
    subst hbm
    rw [if_pos (by omega), if_neg hlt]
    have hdel : pySliceUpToNeg (List.range' a (b + 1)) b = [a] := by
      simp only [pySliceUpToNeg]
      rw [if_neg (by omega), List.length_range']
      have h1 : b + 1 - b = 1 := by omega
      rw [h1, List.range'_succ]
      rfl
    rw [hdel, List.range'_succ, List.filter_cons]
    have hhead : (decide (a ∉ ([a] : List Nat))) = false := by simp
    rw [hhead]
    simp only [Bool.false_eq_true, if_false]
    apply List.filter_eq_self.mpr
    intro y hy
    have hmem := List.mem_range'_1.mp hy
    simp only [List.mem_singleton, decide_eq_true_eq]
    omega

theorem runBackups_range (m : Nat) (hm : 1 ≤ m) (j : Nat) :
    runBackups m (List.range j) = List.range' (j - min j m) (min j m) := by
  induction j with
  | zero => simp [runBackups]
  | succ n ih =>
    have hfold : runBackups m (List.range (n + 1)) =
        backup_world m (runBackups m (List.range n)) n := by
      unfold runBackups
      rw [List.range_succ, List.foldl_append]
      rfl
    rw [hfold, ih]
    have hb : min n m ≤ m := Nat.min_le_right n m
    have hsum : n - min n m + min n m = n := by
      have := Nat.min_le_left n m
      omega
    have hstep := backup_world_range' m (n - min n m) (min n m) hm hb
    rw [hsum] at hstep
    rw [hstep]
    rcases Nat.lt_or_ge n m with hlt | hge
    · have h1 : min n m = n := Nat.min_eq_left (Nat.le_of_lt hlt)
      have h2 : min (n + 1) m = n + 1 := Nat.min_eq_left hlt
      rw [h1, h2, if_pos hlt]
      have e1 : n - n = 0 := by omega
      have e2 : n + 1 - (n + 1) = 0 := by omega
      rw [e1, e2]
    · have h1 : min n m = m := Nat.min_eq_right hge
      have h2 : min (n + 1) m = m := Nat.min_eq_right (by omega)
      rw [h1, h2, if_neg (by omega)]
      have e1 : n - m + 1 = n + 1 - m := by omega
      rw [e1]

/-- C4 (amended): for every maxBackups ≥ 1 and k ≥ 1, after creating
maxBackups + k backups (with chronologically increasing names) the retention
pass leaves exactly maxBackups backup files, and they are the maxBackups most
recently created ones; every older entry is deleted. For maxBackups = 0 the
claim fails: the Python slice backups[:-0] is empty, so the retention pass
deletes nothing. -/
theorem c4_retention (maxBackups k : Nat) (hm : 1 ≤ maxBackups) (hk : 1 ≤ k) :
    runBackups maxBackups (List.range (maxBackups + k)) = List.range' k maxBackups ∧
    (runBackups maxBackups (List.range (maxBackups + k))).length = maxBackups := by
  have h := runBackups_range maxBackups hm (maxBackups + k)
  have hmin : min (maxBackups + k) maxBackups = maxBackups :=
    Nat.min_eq_right (Nat.le_add_right _ _)
  rw [hmin] at h
  have hsub : maxBackups + k - maxBackups = k := by omega
  rw [hsub] at h
  exact ⟨h, by rw [h, List.length_range']⟩

/-- C4 witness: with maxBackups = 2 and k = 3, after five backups exactly the
two newest (names 3 and 4) remain. -/
theorem c4_witness :
    runBackups 2 (List.range (2 + 3)) = List.range' 3 2 ∧
    (runBackups 2 (List.range (2 + 3))).length = 2 :=
  c4_retention 2 3 (by decide) (by decide)

/-- C4 counterexample: with maxBackups = 0 and k = 1, the claim demands that no
backup remain after the retention pass, but the code deletes nothing (the slice
backups[:-0] is empty), so the single backup created is still present. -/
theorem c4_counterexample :
    runBackups 0 (List.range (0 + 1)) = [0] ∧
    (runBackups 0 (List.range (0 + 1))).length ≠ 0 := by
  decide

end Mcsm

